import Mathlib

/-!
# Verification of the focus4 entity/form core

Shallow embedding of the form lifecycle orchestrator (`AutoForm`), the global
edit registry (`editingMap` / `isOneEdit`), and the field helpers
(`fieldFor` / `selectFor` / `displayFor` / `stringFor`) of the focus4
repository, together with proofs of the behavioural properties claimed of
them.

The repository bundles two revisions of `AutoForm`:
* the newer revision (with `formContext.forceErrorDisplay`, the static
  `editingMap` registry and `entity.sourceNode`), embedded here as the
  `Focus4` namespace's `save`, `load`, `toggleEdit` over `FormState`;
* the older revision (with the per-form `errors : Record<string, string>`
  map and `validate()` over registered fields), embedded as `saveV1` over
  `FormStateV1`.
Likewise two revisions of the field helpers exist (`entity/field/utils.tsx`
and the copy embedded after `list/components/action-bar.tsx`); both are
embedded (`fieldForNew`/`selectForNew` vs `fieldForOld`/`selectForOld`).
-/

namespace Focus4

/-! ## JavaScript value model

Scalar values as they flow through the field helpers.  `truthy` is the
JavaScript truthiness used by `a && b || c` chains in the source
(`found && found[labelKey] || value`).  Numbers are modelled as integers
(no floating point is involved in any claim). -/

inductive JSVal where
  | undefined
  | null
  | bool (b : Bool)
  | num (n : Int)
  | str (s : String)
deriving DecidableEq

/-- JavaScript truthiness of a value. -/
def JSVal.truthy : JSVal → Bool
  | .undefined => false
  | .null => false
  | .bool b => b
  | .num n => decide (n ≠ 0)
  | .str s => decide (s ≠ "")

/-- A JavaScript object with string keys, as an association list. -/
abbrev JSRecord := List (String × JSVal)

/-- Property access `r[k]`: `undefined` when the key is absent. -/
def getProp (r : JSRecord) (k : String) : JSVal :=
  (r.lookup k).getD .undefined

/-! ## Form lifecycle orchestrator (newer `AutoForm` revision)

The orchestrator is embedded as a pure state machine.  `V` is the type of
entity values held by a node (view model and source node have the same
shape), `D` the type of the data exchanged with the load/save services,
`P` the type of a load-parameter array.

The view model (`view-model.ts`, not part of the sources at hand), the
store node's `set`/`clear` (`store.ts`) and the validation result
`entity.form.isValid` are collaborators of `AutoForm`; they enter the
machine as the abstract functions bundled in `Services`. -/

/-- The structured rejection object of the save service: it may carry a
`fields` property mapping field names to error messages. -/
structure SaveErr where
  fields : Option (List (String × String))
deriving DecidableEq

/-- Collaborators of the newer `AutoForm` revision:

* `isValid` — the view model's aggregate validation verdict read by `save()`
  as `this.entity.form.isValid`;
* `setStore` — `sourceNode.set(data)` merging service data onto the source
  node's values;
* `clearStore` — `sourceNode.clear()`;
* `saveSvc` — the outcome of the promise returned by `services.save`;
* `loadSvc` — the optional `services.load`, mapping the parameter array to
  the outcome of its promise;
* `getLoadParams` — the optional `services.getLoadParams`; the inner
  `Option` is its return value (`undefined` or a parameter array). -/
structure Services (V D P : Type) where
  isValid : V → Bool
  setStore : V → D → V
  clearStore : V → V
  saveSvc : Except SaveErr D
  loadSvc : Option (P → Except Unit D)
  getLoadParams : Option (Option P)

/-- Observable state of one form instance of the newer `AutoForm` revision.
`saveCalls` counts invocations of the save service, `loadCallArgs` records
the arguments of every load-service invocation, and the two hook counters
count firings of `onFormSaved` / `onFormLoaded`. -/
structure FormState (V P : Type) where
  forceErrorDisplay : Bool
  isLoading : Bool
  isEdit : Bool
  vmValues : V
  srcValues : V
  saveCalls : Nat
  savedHooks : Nat
  loadCallArgs : List P
  loadedHooks : Nat

/-- `save()` of the newer `AutoForm` revision:
sets `formContext.forceErrorDisplay = true`; if `entity.form.isValid`,
sets `isLoading`, awaits `services.save`; on resolution resets `isLoading`,
leaves edit mode, writes the returned data onto the source node and fires
`onFormSaved`; on rejection only resets `isLoading`. -/
def save {V D P : Type} (sv : Services V D P) (s : FormState V P) :
    FormState V P :=
  let s1 := {s with forceErrorDisplay := true}
  if sv.isValid s1.vmValues then
    let s2 := {s1 with isLoading := true, saveCalls := s1.saveCalls + 1}
    match sv.saveSvc with
    | .ok d =>
        {s2 with
          isLoading := false
          isEdit := false
          srcValues := sv.setStore s2.srcValues d
          savedHooks := s2.savedHooks + 1}
    | .error _ => {s2 with isLoading := false}
  else s1

/-- The part of `load()` that runs before the `await`: when both
`getLoadParams` and `load` are supplied and the parameters are defined,
sets `isLoading`, clears the source node and invokes the load service;
otherwise `load()` does nothing (`none`). -/
def loadStart {V D P : Type} (sv : Services V D P) (s : FormState V P) :
    Option ((P → Except Unit D) × P × FormState V P) :=
  match sv.getLoadParams, sv.loadSvc with
  | some (some p), some f =>
      some (f, p,
        {s with
          isLoading := true
          srcValues := sv.clearStore s.srcValues
          loadCallArgs := s.loadCallArgs ++ [p]})
  | _, _ => none

/-- `load()` of the newer `AutoForm` revision: runs `loadStart`, awaits the
load service; on resolution writes the data onto the source node, resets
`isLoading` and fires `onFormLoaded`.  On rejection the `await` throws and
nothing after it runs (the source has no `try`/`finally`). -/
def load {V D P : Type} (sv : Services V D P) (s : FormState V P) :
    FormState V P :=
  match loadStart sv s with
  | none => s
  | some (f, p, s1) =>
      match f p with
      | .ok d =>
          {s1 with
            srcValues := sv.setStore s1.srcValues d
            isLoading := false
            loadedHooks := s1.loadedHooks + 1}
      | .error _ => s1

/-- `toggleEdit(isEdit)` of the newer `AutoForm` revision: writes the flag
onto the view model's form facet; on leaving edit mode calls
`entity.reset()`.  Modelled from the spec: `reset()` (in `view-model.ts`,
absent from the sources at hand) recopies every value from the source
subtree into the view model, so it is embedded as `vmValues := srcValues`. -/
def toggleEditForm {V P : Type} (e : Bool) (s : FormState V P) :
    FormState V P :=
  let s1 := {s with isEdit := e}
  if e then s1 else {s1 with vmValues := s1.srcValues}

/-! ## Global edit registry

The static `editingMap : ObservableMap<boolean>` of the newer `AutoForm`:
`componentWillMount` adds the entry `(formId, entity.form.isEdit)`,
`componentWillUnmount` deletes it, and the `classAutorun`
`updateApplicationStore` rewrites the entry whenever the edit flag changes.
Modelled from the spec: `classAutorun` (from the `util` module, absent from
the sources at hand) runs its body synchronously after every change of the
observables it reads, while the component is mounted — so each
`toggleEdit` is immediately followed by the registry update.

The `ObservableMap` is embedded as an association list with `rset`
(replace-or-append) and `rdel`. -/

/-- `ObservableMap.set`: replace the first binding of the key, or append. -/
def rset : List (String × Bool) → String → Bool → List (String × Bool)
  | [], k, v => [(k, v)]
  | e :: rest, k, v =>
      if e.1 = k then (k, v) :: rest else e :: rset rest k v

/-- `ObservableMap.delete`: drop every binding of the key. -/
def rdel (m : List (String × Bool)) (k : String) : List (String × Bool) :=
  m.filter (fun e => e.1 ≠ k)

/-- `AutoForm.isOneEdit`: `editingMap.values().some(x => x)`. -/
def isOneEdit (m : List (String × Bool)) : Bool :=
  m.any (fun e => e.2)

/-- The lifecycle events that touch the registry: a form instance mounting
(with its current edit flag), unmounting, and an edit-flag toggle. -/
inductive FormOp where
  | mount (id : String) (e : Bool)
  | unmount (id : String)
  | toggle (id : String) (e : Bool)

/-- The process-wide picture: the currently mounted form instances with
their edit flags (`mounted`, the reference the registry must agree with)
and the static `editingMap` itself. -/
structure FormsWorld where
  mounted : List (String × Bool)
  editingMap : List (String × Bool)

/-- Effect of one lifecycle event.  Mounting appends the instance and runs
`editingMap.set(formId, isEdit)`; unmounting drops the instance and runs
`editingMap.delete(formId)`; a toggle updates the instance's flag, and the
`classAutorun` mirrors it with `editingMap.set(formId, isEdit)`. -/
def applyOp (w : FormsWorld) : FormOp → FormsWorld
  | .mount id e =>
      { mounted := w.mounted ++ [(id, e)], editingMap := rset w.editingMap id e }
  | .unmount id =>
      { mounted := w.mounted.filter (fun x => x.1 ≠ id),
        editingMap := rdel w.editingMap id }
  | .toggle id e =>
      { mounted := rset w.mounted id e, editingMap := rset w.editingMap id e }

/-- Run a sequence of lifecycle events. -/
def runOps (w : FormsWorld) (ops : List FormOp) : FormsWorld :=
  ops.foldl applyOp w

/-- No live form instances, empty registry. -/
def emptyWorld : FormsWorld := { mounted := [], editingMap := [] }

/-- Well-formed event sequences, relative to the list of mounted form ids:
a mount uses a fresh id (`formId = v4()` is a fresh uuid), and a toggle
concerns a mounted instance (an unmounted form's `classAutorun` is
disposed).  Unmounting is unrestricted. -/
def wfOps : List String → List FormOp → Bool
  | _, [] => true
  | ids, .mount id _ :: rest => !ids.contains id && wfOps (ids ++ [id]) rest
  | ids, .unmount id :: rest => wfOps (ids.filter (fun x => x ≠ id)) rest
  | ids, .toggle id _ :: rest => ids.contains id && wfOps ids rest

/-- `toggleEdit` together with the registry update performed by the
`classAutorun` reaction `updateApplicationStore`. -/
def toggleEditWithRegistry {V P : Type} (id : String) (e : Bool)
    (s : FormState V P) (m : List (String × Bool)) :
    FormState V P × List (String × Bool) :=
  (toggleEditForm e s, rset m id e)

/-! ## Older `AutoForm` revision: `save()` with the `errors` map

The older revision keeps an observable `errors : Record<string, string>`;
`validate()` sets `showError = true` on every registered field and answers
whether none of them carries an error; on save rejection, a `fields`
property of the rejection object is written into `errors`
(`if (e.fields) { this.errors = e.fields || {}; }`). -/

/-- Collaborators of the older `AutoForm` revision.  `validateOk` is the
verdict of `validate()` (`!some(values(this.fields), f => f && f.error)`). -/
structure ServicesV1 (V D : Type) where
  validateOk : Bool
  setStore : V → D → V
  saveSvc : Except SaveErr D

/-- Observable state of one form instance of the older `AutoForm` revision.
`showErrorAll` stands for `showError = true` having been forced on every
registered field by `validate()`. -/
structure FormStateV1 (V : Type) where
  showErrorAll : Bool
  isLoading : Bool
  isEdit : Bool
  errors : List (String × String)
  vmValues : V
  srcValues : V
  saveCalls : Nat
  savedHooks : Nat

/-- `save()` of the older `AutoForm` revision: runs `validate()` (forcing
error display on every field), and when it passes sets `isLoading`, awaits
`services.save`; on resolution resets `isLoading`, leaves edit mode, writes
the returned data onto `storeData` and fires `onFormSaved`; on rejection
resets `isLoading` and, when the rejection carries a `fields` property,
assigns it to `errors`. -/
def saveV1 {V D : Type} (sv : ServicesV1 V D) (s : FormStateV1 V) :
    FormStateV1 V :=
  let s0 := {s with showErrorAll := true}
  if sv.validateOk then
    let s1 := {s0 with isLoading := true, saveCalls := s0.saveCalls + 1}
    match sv.saveSvc with
    | .ok d =>
        {s1 with
          isLoading := false
          isEdit := false
          srcValues := sv.setStore s1.srcValues d
          savedHooks := s1.savedHooks + 1}
    | .error e =>
        {s1 with
          isLoading := false
          errors := match e.fields with
            | some m => m
            | none => s1.errors}
  else s0

/-! ## Field helpers

Embedding of `fieldFor` / `displayFor` / `selectFor` / `stringFor`.  Both
revisions are embedded: the one in `entity/field/utils.tsx` (`...New`) and
the one bundled after `list/components/action-bar.tsx` (`...Old`).

React components and mobx action handlers are opaque to every claim, so a
component is a named marker (`Comp`) and an `onChange` handler is the name
mobx gives it (`` `on${upperFirst(field.$field.name)}Change` ``). -/

/-- An opaque React component, identified by name. -/
structure Comp where
  name : String
deriving DecidableEq

/-- The default `Select` component picked by `selectFor`. -/
def Select : Comp := ⟨"Select"⟩

/-- The per-field `Domain` (`entity/types.ts`), restricted to the members
the claims mention: the display formatter, the validator list (opaque
markers) and the input component.  `F` is the type of a formatter. -/
structure DomainM (F : Type) where
  displayFormatter : Option F
  validator : List String
  InputComponent : Option Comp

/-- The `FieldEntry` metadata of `entity/types.ts`. -/
structure FieldEntryM (F : Type) where
  domain : DomainM F
  isRequired : Bool
  name : String
  translationKey : String

/-- An `EntityField`: the `$field` metadata (`fld` here) plus the current
value. -/
structure EntityFieldM (F : Type) where
  fld : FieldEntryM F
  value : JSVal

/-- The mutable options bag passed to the helpers, restricted to the
members they write. -/
structure FieldOptionsM where
  onChange : Option String
  isEdit : Option Bool
  innerRef : Option String
  values : List JSRecord
  SelectComponent : Option Comp

/-- `fieldFor` of `entity/field/utils.tsx`: defaults `options.onChange` and
renders; the field (hence its domain) is returned untouched. -/
def fieldForNew {F : Type} (f : EntityFieldM F) (o : FieldOptionsM) :
    EntityFieldM F × FieldOptionsM :=
  (f, {o with onChange := some (o.onChange.getD ("on" ++ f.fld.name.capitalize ++ "Change"))})

/-- `selectFor` of `entity/field/utils.tsx`: defaults
`options.SelectComponent` to `Select`, stores the reference list in
`options.values` and delegates to `fieldFor`.  Only `options` is written. -/
def selectForNew {F : Type} (f : EntityFieldM F) (vs : List JSRecord)
    (o : FieldOptionsM) : EntityFieldM F × FieldOptionsM :=
  fieldForNew f
    {o with SelectComponent := some (o.SelectComponent.getD Select), values := vs}

/-- `fieldFor` of the `action-bar.tsx` revision: defaults
`options.onChange`, and without an `innerRef` defaults `options.isEdit` to
`true`; the field is returned untouched. -/
def fieldForOld {F : Type} (f : EntityFieldM F) (o : FieldOptionsM) :
    EntityFieldM F × FieldOptionsM :=
  let o1 := {o with onChange := some (o.onChange.getD ("on" ++ f.fld.name.capitalize ++ "Change"))}
  let o2 :=
    if o1.innerRef.isNone then
      if o1.isEdit.isNone then {o1 with isEdit := some true} else o1
    else o1
  (f, o2)

/-- `displayFor` of the `action-bar.tsx` revision: forces
`options.isEdit = false` and delegates to `fieldFor`. -/
def displayForOld {F : Type} (f : EntityFieldM F) (o : FieldOptionsM) :
    EntityFieldM F × FieldOptionsM :=
  fieldForOld f {o with isEdit := some false}

/-- `selectFor` of the `action-bar.tsx` revision: executes
`field.$field.domain.InputComponent = options.SelectComponent || Select`
— an assignment into the shared domain object — then stores the reference
list in `options.values` and delegates to `fieldFor`. -/
def selectForOld {F : Type} (f : EntityFieldM F) (vs : List JSRecord)
    (o : FieldOptionsM) : EntityFieldM F × FieldOptionsM :=
  let f1 :=
    {f with fld :=
      {f.fld with domain :=
        {f.fld.domain with InputComponent := some (o.SelectComponent.getD Select)}}}
  fieldForOld f1 {o with values := vs}

/-- `stringFor`: picks the domain's `displayFormatter` (defaulting to the
translate service `tr`, as `(t) => i18next.t(t)`), finds the first
reference-list element whose value key (default `"code"`) strictly equals
the field's value, and formats `found && found[labelKey] || value`.
The `utils.tsx` revision draws the keys from the reference list's
`$valueKey`/`$labelKey` and the `action-bar.tsx` revision from
`options.valueKey`/`options.labelKey`; both are the two `Option String`
arguments here, with the same defaults. -/
def stringFor (tr : JSVal → String) (field : EntityFieldM (JSVal → String))
    (values : List JSRecord) (valueKey labelKey : Option String) : String :=
  let displayFormatter := field.fld.domain.displayFormatter.getD tr
  let vk := valueKey.getD "code"
  let lk := labelKey.getD "label"
  let found := values.find? (fun r => getProp r vk == field.value)
  let processedValue :=
    match found with
    | some r => if (getProp r lk).truthy then getProp r lk else field.value
    | none => field.value
  displayFormatter processedValue

/-! ## Concrete fixtures

Concrete services, states and inputs used to evaluate the machine. -/

/-- Services whose validation passes and whose save/load promises resolve. -/
def svValid : Services Nat Nat Nat :=
  { isValid := fun _ => true
    setStore := fun _ d => d
    clearStore := fun _ => 0
    saveSvc := .ok 7
    loadSvc := some (fun p => .ok (p + 1))
    getLoadParams := some (some 5) }

/-- Services whose validation reports an error. -/
def svInvalid : Services Nat Nat Nat :=
  {svValid with isValid := fun _ => false}

/-- Services whose load promise rejects. -/
def svLoadFail : Services Nat Nat Nat :=
  {svValid with loadSvc := some (fun _ => .error ())}

/-- Services whose `getLoadParams` returns `undefined`. -/
def svNoParams : Services Nat Nat Nat :=
  {svValid with getLoadParams := some none}

/-- A form instance at rest, in edit mode. -/
def sEx : FormState Nat Nat :=
  { forceErrorDisplay := false
    isLoading := false
    isEdit := true
    vmValues := 3
    srcValues := 1
    saveCalls := 0
    savedHooks := 0
    loadCallArgs := []
    loadedHooks := 0 }

/-- The same instance while an operation is in flight (`isLoading`). -/
def sLoadingEx : FormState Nat Nat := {sEx with isLoading := true}

/-- Older-revision services whose save promise rejects with
`{fields: {email: "invalid"}}`. -/
def svReject : ServicesV1 Nat Nat :=
  { validateOk := true
    setStore := fun _ d => d
    saveSvc := .error ⟨some [("email", "invalid")]⟩ }

/-- Older-revision form state already displaying a `name` error, in edit
mode. -/
def s1Ex : FormStateV1 Nat :=
  { showErrorAll := false
    isLoading := false
    isEdit := true
    errors := [("name", "required")]
    vmValues := 3
    srcValues := 1
    saveCalls := 0
    savedHooks := 0 }

/-- A lifecycle trace: two mounts, a toggle into edit, one unmount. -/
def opsEx : List FormOp :=
  [.mount "a" false, .mount "b" true, .toggle "a" true, .unmount "b"]

/-- A concrete translate service. -/
def trEx : JSVal → String :=
  fun v => match v with
    | .str s => s
    | _ => "?"

/-- A field whose domain has no display formatter, holding the value `2`. -/
def fieldEx : EntityFieldM (JSVal → String) :=
  { fld :=
      { domain := { displayFormatter := none, validator := [], InputComponent := none }
        isRequired := false
        name := "country"
        translationKey := "user.country" }
    value := .num 2 }

/-- The same field holding a value matching no reference element. -/
def fieldNoMatchEx : EntityFieldM (JSVal → String) :=
  {fieldEx with value := .num 9}

/-- A two-element reference list keyed by `code`/`label`. -/
def refListEx : List JSRecord :=
  [[("code", .num 1), ("label", .str "one")],
   [("code", .num 2), ("label", .str "two")]]

/-- A field (formatters as opaque markers) whose domain specifies no input
component. -/
def exField : EntityFieldM String :=
  { fld :=
      { domain := { displayFormatter := none, validator := ["required"], InputComponent := none }
        isRequired := true
        name := "email"
        translationKey := "user.email" }
    value := .str "a" }

/-- An empty options bag. -/
def exOptions : FieldOptionsM :=
  { onChange := none, isEdit := none, innerRef := none, values := [], SelectComponent := none }

/-- The keys of a registry. -/
def keysOf (m : List (String × Bool)) : List String :=
  m.map (fun e => e.1)

/-! ## Helper lemmas -/

theorem rset_lookup_self (m : List (String × Bool)) (k : String) (v : Bool) :
    (rset m k v).lookup k = some v := by
  induction m with
  | nil => simp [rset, List.lookup]
  | cons e rest ih =>
    by_cases h : e.1 = k
    · simp [rset, h, List.lookup]
    · have hne : (k == e.1) = false := beq_eq_false_iff_ne.mpr (Ne.symm h)
      simpa [rset, h, List.lookup, hne] using ih

theorem rset_of_not_contains (m : List (String × Bool)) (k : String) (v : Bool)
    (h : (keysOf m).contains k = false) : rset m k v = m ++ [(k, v)] := by
  induction m with
  | nil => simp [rset]
  | cons e rest ih =>
    simp only [keysOf, List.map_cons, List.contains_cons, Bool.or_eq_false_iff,
      beq_eq_false_iff_ne] at h
    simp [rset, Ne.symm h.1, ih h.2]

theorem keysOf_rset_of_contains (m : List (String × Bool)) (k : String) (v : Bool)
    (h : (keysOf m).contains k = true) : keysOf (rset m k v) = keysOf m := by
  induction m with
  | nil => simp [keysOf] at h
  | cons e rest ih =>
    by_cases he : e.1 = k
    · simp [rset, he, keysOf]
    · simp only [keysOf, List.map_cons, List.contains_cons, Bool.or_eq_true,
        beq_iff_eq] at h
      rcases h with h | h
      · exact absurd h.symm he
      · simpa [rset, he, keysOf] using ih (by simpa [keysOf] using h)

theorem keysOf_filter_ne (m : List (String × Bool)) (k : String) :
    keysOf (m.filter (fun e => e.1 ≠ k)) = (keysOf m).filter (fun x => x ≠ k) := by
  induction m with
  | nil => rfl
  | cons e rest ih =>
    by_cases he : e.1 = k
    · simpa [keysOf, List.filter_cons, he] using ih
    · simpa [keysOf, List.filter_cons, he] using ih

theorem keysOf_append (m1 m2 : List (String × Bool)) :
    keysOf (m1 ++ m2) = keysOf m1 ++ keysOf m2 := by
  simp [keysOf]

/-- The registry invariant: starting from a world where the registry agrees
with the mounted instances, any well-formed event sequence keeps them
equal. -/
theorem runOps_editingMap_eq (ops : List FormOp) :
    ∀ w : FormsWorld, w.editingMap = w.mounted →
      wfOps (keysOf w.mounted) ops = true →
      (runOps w ops).editingMap = (runOps w ops).mounted := by
  induction ops with
  | nil => intro w h _; exact h
  | cons op rest ih =>
    intro w h hwf
    cases op with
    | mount id e =>
      simp only [wfOps, Bool.and_eq_true, Bool.not_eq_true'] at hwf
      have hstep : runOps w (FormOp.mount id e :: rest) =
          runOps (applyOp w (FormOp.mount id e)) rest := rfl
      rw [hstep]
      apply ih
      · show rset w.editingMap id e = w.mounted ++ [(id, e)]
        rw [h, rset_of_not_contains _ _ _ hwf.1]
      · show wfOps (keysOf (w.mounted ++ [(id, e)])) rest = true
        rw [keysOf_append]
        exact hwf.2
    | unmount id =>
      simp only [wfOps] at hwf
      have hstep : runOps w (FormOp.unmount id :: rest) =
          runOps (applyOp w (FormOp.unmount id)) rest := rfl
      rw [hstep]
      apply ih
      · show rdel w.editingMap id = w.mounted.filter (fun x => x.1 ≠ id)
        rw [rdel, h]
      · show wfOps (keysOf (w.mounted.filter (fun x => x.1 ≠ id))) rest = true
        rw [keysOf_filter_ne]
        exact hwf
    | toggle id e =>
      simp only [wfOps, Bool.and_eq_true] at hwf
      have hstep : runOps w (FormOp.toggle id e :: rest) =
          runOps (applyOp w (FormOp.toggle id e)) rest := rfl
      rw [hstep]
      apply ih
      · show rset w.editingMap id e = rset w.mounted id e
        rw [h]
      · show wfOps (keysOf (rset w.mounted id e)) rest = true
        rw [keysOf_rset_of_contains _ _ _ hwf.1]
        exact hwf.2

/-- `List.find?` returns the element at the first index satisfying the
predicate. -/
theorem find?_eq_get_of_first {α : Type} (p : α → Bool) :
    ∀ (l : List α) (i : Nat) (hi : i < l.length),
      (l.take i).all (fun x => !p x) = true → p (l.get ⟨i, hi⟩) = true →
      l.find? p = some (l.get ⟨i, hi⟩) := by
  intro l
  induction l with
  | nil => intro i hi; simp at hi
  | cons x xs ih =>
    intro i hi hall hp
    cases i with
    | zero =>
      simp only [List.get] at hp
      simp [List.find?, hp]
    | succ j =>
      simp only [List.take, List.all_cons, Bool.and_eq_true, Bool.not_eq_true'] at hall
      simp only [List.get] at hp ⊢
      rw [List.find?_cons, hall.1]
      exact ih j (Nat.lt_of_succ_lt_succ hi) hall.2 hp

/-! ## Claim theorems -/

/-- C1: a single invocation of `save()` invokes the save collaborator
exactly once when the view model's validation reports no error; when
validation reports an error it performs no call and changes no state other
than setting `forceErrorDisplay` to `true`. -/
theorem save_gating {V D P : Type} (sv : Services V D P) (s : FormState V P) :
    (sv.isValid s.vmValues = true → (save sv s).saveCalls = s.saveCalls + 1) ∧
    (sv.isValid s.vmValues = false → save sv s = {s with forceErrorDisplay := true}) := by
  constructor
  · intro h
    cases hs : sv.saveSvc <;> simp [save, h, hs]
  · intro h
    simp [save, h]

/-- Witness for C1: concrete valid and invalid instances. -/
theorem save_gating_witness :
    (svValid.isValid sEx.vmValues = true ∧
      (save svValid sEx).saveCalls = sEx.saveCalls + 1) ∧
    (svInvalid.isValid sEx.vmValues = false ∧
      save svInvalid sEx = {sEx with forceErrorDisplay := true}) :=
  ⟨⟨rfl, (save_gating svValid sEx).1 rfl⟩, ⟨rfl, (save_gating svInvalid sEx).2 rfl⟩⟩

/-- C2 counterexample: a save rejection carrying `fields` overwrites the
error map instead of merging into it — the pre-existing `name` entry is
lost. -/
theorem saveV1_reject_replaces_cex :
    s1Ex.errors.lookup "name" = some "required" ∧
    (saveV1 svReject s1Ex).errors.lookup "email" = some "invalid" ∧
    (saveV1 svReject s1Ex).errors.lookup "name" = none := by
  decide

/-- C2 (amended): on save rejection `isLoading` is reset, edit mode and the
node values are untouched, and a `fields` property on the rejection
replaces the visible error map (no `fields` property leaves it unchanged). -/
theorem saveV1_reject_spec {V D : Type} (sv : ServicesV1 V D) (s : FormStateV1 V)
    (e : SaveErr) (hv : sv.validateOk = true) (hs : sv.saveSvc = Except.error e) :
    (saveV1 sv s).isLoading = false ∧
    (saveV1 sv s).isEdit = s.isEdit ∧
    (saveV1 sv s).vmValues = s.vmValues ∧
    (saveV1 sv s).srcValues = s.srcValues ∧
    (∀ m, e.fields = some m → (saveV1 sv s).errors = m) ∧
    (e.fields = none → (saveV1 sv s).errors = s.errors) := by
  cases hf : e.fields <;> simp [saveV1, hv, hs, hf]

/-- Witness for C2 (amended): the spec's scenario, rejection with
`{fields: {email: "invalid"}}`. -/
theorem saveV1_reject_spec_witness :
    svReject.validateOk = true ∧
    svReject.saveSvc = Except.error ⟨some [("email", "invalid")]⟩ ∧
    (saveV1 svReject s1Ex).isLoading = false ∧
    (saveV1 svReject s1Ex).isEdit = s1Ex.isEdit ∧
    (saveV1 svReject s1Ex).vmValues = s1Ex.vmValues ∧
    (saveV1 svReject s1Ex).errors = [("email", "invalid")] := by
  have h := saveV1_reject_spec svReject s1Ex ⟨some [("email", "invalid")]⟩ rfl rfl
  exact ⟨rfl, rfl, h.1, h.2.1, h.2.2.1, h.2.2.2.2.1 _ rfl⟩

/-- C3: when validation passes and the save promise resolves with data,
`save()` writes the data onto the source node via `set`, leaves edit mode,
resets `isLoading` and fires `onFormSaved`. -/
theorem save_success_spec {V D P : Type} (sv : Services V D P) (s : FormState V P)
    (d : D) (hv : sv.isValid s.vmValues = true) (hs : sv.saveSvc = Except.ok d) :
    save sv s =
      {s with forceErrorDisplay := true, isLoading := false, isEdit := false,
              srcValues := sv.setStore s.srcValues d,
              saveCalls := s.saveCalls + 1, savedHooks := s.savedHooks + 1} := by
  simp [save, hv, hs]

/-- Witness for C3: a concrete resolving save. -/
theorem save_success_spec_witness :
    svValid.isValid sEx.vmValues = true ∧
    svValid.saveSvc = Except.ok 7 ∧
    save svValid sEx =
      {sEx with forceErrorDisplay := true, isLoading := false, isEdit := false,
                srcValues := svValid.setStore sEx.srcValues 7,
                saveCalls := sEx.saveCalls + 1, savedHooks := sEx.savedHooks + 1} :=
  ⟨rfl, rfl, save_success_spec svValid sEx 7 rfl rfl⟩

/-- C4: with `getLoadParams` and `load` supplied and defined parameters,
`load()` sets `isLoading`, clears the source node, invokes the load
collaborator with those parameters and, on resolution, sets the result
onto the source node, resets `isLoading` and fires `onFormLoaded`; when
`getLoadParams()` returns `undefined`, `load()` is a no-op. -/
theorem load_spec {V D P : Type} (sv : Services V D P) (s : FormState V P) :
    (∀ (p : P) (f : P → Except Unit D),
      sv.getLoadParams = some (some p) → sv.loadSvc = some f →
      loadStart sv s = some (f, p,
        {s with isLoading := true, srcValues := sv.clearStore s.srcValues,
                loadCallArgs := s.loadCallArgs ++ [p]}) ∧
      (∀ d : D, f p = Except.ok d →
        load sv s =
          {s with isLoading := false,
                  srcValues := sv.setStore (sv.clearStore s.srcValues) d,
                  loadCallArgs := s.loadCallArgs ++ [p],
                  loadedHooks := s.loadedHooks + 1})) ∧
    (sv.getLoadParams = some none → load sv s = s) := by
  constructor
  · intro p f hg hl
    constructor
    · simp [loadStart, hg, hl]
    · intro d hd
      simp [load, loadStart, hg, hl, hd]
  · intro hg
    cases hl : sv.loadSvc <;> simp [load, loadStart, hg, hl]

/-- Witness for C4: a concrete resolving load and a concrete undefined
parameter case. -/
theorem load_spec_witness :
    svValid.getLoadParams = some (some 5) ∧
    svValid.loadSvc = some (fun p => Except.ok (p + 1)) ∧
    load svValid sEx =
      {sEx with isLoading := false,
                srcValues := svValid.setStore (svValid.clearStore sEx.srcValues) 6,
                loadCallArgs := sEx.loadCallArgs ++ [5],
                loadedHooks := sEx.loadedHooks + 1} ∧
    svNoParams.getLoadParams = some none ∧
    load svNoParams sEx = sEx := by
  refine ⟨rfl, rfl, ?_, rfl, ?_⟩
  · exact ((load_spec svValid sEx).1 5 (fun p => Except.ok (p + 1)) rfl rfl).2 6 rfl
  · exact (load_spec svNoParams sEx).2 rfl

/-- C5 counterexample: the load promise rejects and `isLoading`, which was
`false` before the call, remains `true` afterwards — it is not reset. -/
theorem load_reject_isLoading_cex :
    sEx.isLoading = false ∧ (load svLoadFail sEx).isLoading = true :=
  ⟨rfl, rfl⟩

/-- C5 (amended): when the load promise rejects after `load()` set
`isLoading` to `true`, nothing after the `await` runs: `isLoading` remains
`true`, the source node stays cleared and no hook fires — the code has no
cleanup path and the rejection propagates. -/
theorem load_reject_spec {V D P : Type} (sv : Services V D P) (s : FormState V P)
    (p : P) (f : P → Except Unit D)
    (hg : sv.getLoadParams = some (some p)) (hl : sv.loadSvc = some f)
    (hf : f p = Except.error ()) :
    load sv s =
      {s with isLoading := true, srcValues := sv.clearStore s.srcValues,
              loadCallArgs := s.loadCallArgs ++ [p]} := by
  simp [load, loadStart, hg, hl, hf]

/-- Witness for C5 (amended): a concrete rejecting load. -/
theorem load_reject_spec_witness :
    svLoadFail.getLoadParams = some (some 5) ∧
    svLoadFail.loadSvc = some (fun _ : Nat => (Except.error () : Except Unit Nat)) ∧
    load svLoadFail sEx =
      {sEx with isLoading := true, srcValues := svLoadFail.clearStore sEx.srcValues,
                loadCallArgs := sEx.loadCallArgs ++ [5]} :=
  ⟨rfl, rfl, load_reject_spec svLoadFail sEx 5 _ rfl rfl rfl⟩

/-- C6 counterexample: a `save()` issued while `isLoading` is `true` is not
a no-op — the save collaborator is invoked again and the state changes. -/
theorem save_reentrancy_cex :
    sLoadingEx.isLoading = true ∧
    (save svValid sLoadingEx).saveCalls = sLoadingEx.saveCalls + 1 ∧
    save svValid sLoadingEx ≠ sLoadingEx :=
  ⟨rfl, rfl, fun h => Nat.one_ne_zero (congrArg FormState.saveCalls h)⟩

/-- C6 (amended): `save()` has no `isLoading` guard — invoked while an
earlier save is still in flight it proceeds like any other save: it forces
error display and, when validation passes, invokes the collaborator again. -/
theorem save_no_reentrancy_guard {V D P : Type} (sv : Services V D P)
    (s : FormState V P) (hl : s.isLoading = true)
    (hv : sv.isValid s.vmValues = true) :
    (save sv s).saveCalls = s.saveCalls + 1 ∧
    (save sv s).forceErrorDisplay = true := by
  cases hs : sv.saveSvc <;> simp [save, hv, hs]

/-- Witness for C6 (amended): a concrete in-flight state. -/
theorem save_no_reentrancy_guard_witness :
    sLoadingEx.isLoading = true ∧
    svValid.isValid sLoadingEx.vmValues = true ∧
    (save svValid sLoadingEx).saveCalls = sLoadingEx.saveCalls + 1 ∧
    (save svValid sLoadingEx).forceErrorDisplay = true := by
  have h := save_no_reentrancy_guard svValid sLoadingEx rfl rfl
  exact ⟨rfl, rfl, h.1, h.2⟩

/-- C7: after any well-formed lifecycle trace (fresh ids on mount, toggles
on mounted forms), `isOneEdit` over the registry equals the logical OR of
the edit flags of the currently mounted form instances. -/
theorem registry_consistency (ops : List FormOp) (h : wfOps [] ops = true) :
    isOneEdit (runOps emptyWorld ops).editingMap =
      (runOps emptyWorld ops).mounted.any (fun e => e.2) := by
  have heq := runOps_editingMap_eq ops emptyWorld rfl h
  rw [isOneEdit, heq]

/-- Witness for C7: mounts, a toggle and an unmount of a mid-edit form. -/
theorem registry_consistency_witness :
    wfOps [] opsEx = true ∧
    isOneEdit (runOps emptyWorld opsEx).editingMap =
      (runOps emptyWorld opsEx).mounted.any (fun e => e.2) :=
  ⟨by decide, registry_consistency opsEx (by decide)⟩

/-- C8: `toggleEdit(true)` sets the edit flag and performs no other state
change; `toggleEdit(false)` additionally resets the view model to the
source's values; in both cases the registry entry is updated to the new
flag. -/
theorem toggleEdit_spec {V P : Type} (id : String) (s : FormState V P)
    (m : List (String × Bool)) :
    (toggleEditWithRegistry id true s m).1 = {s with isEdit := true} ∧
    (toggleEditWithRegistry id true s m).2.lookup id = some true ∧
    (toggleEditWithRegistry id false s m).1 =
      {s with isEdit := false, vmValues := s.srcValues} ∧
    (toggleEditWithRegistry id false s m).2.lookup id = some false :=
  ⟨rfl, rset_lookup_self m id true, rfl, rset_lookup_self m id false⟩

/-- C9: every helper of the `utils.tsx` revision, and `fieldFor` and
`displayFor` of the `action-bar.tsx` revision, return the field — and so
its shared domain — untouched; but `selectFor` of the `action-bar.tsx`
revision assigns the select component into the shared domain, mutating it. -/
theorem selectFor_domain_mutation :
    (∀ (F : Type) (f : EntityFieldM F) (o : FieldOptionsM), (fieldForNew f o).1 = f) ∧
    (∀ (F : Type) (f : EntityFieldM F) (vs : List JSRecord) (o : FieldOptionsM),
      (selectForNew f vs o).1 = f) ∧
    (∀ (F : Type) (f : EntityFieldM F) (o : FieldOptionsM), (fieldForOld f o).1 = f) ∧
    (∀ (F : Type) (f : EntityFieldM F) (o : FieldOptionsM), (displayForOld f o).1 = f) ∧
    exField.fld.domain.InputComponent = none ∧
    (selectForOld exField [] exOptions).1.fld.domain.InputComponent = some Select :=
  ⟨fun _ _ _ => rfl, fun _ _ _ _ => rfl, fun _ _ _ => rfl, fun _ _ _ => rfl, rfl, rfl⟩

/-- C10: `stringFor` applies the domain's display formatter (defaulting to
the translate service) to the label (under the label key, default
`"label"`) of the first reference element whose value key (default
`"code"`) equals the field's value; with no matching element, or a falsy
label, it applies the formatter to the field's raw value. -/
theorem stringFor_spec (tr : JSVal → String) (field : EntityFieldM (JSVal → String))
    (values : List JSRecord) (valueKey labelKey : Option String) :
    ((∀ r ∈ values, (getProp r (valueKey.getD "code") == field.value) = false) →
      stringFor tr field values valueKey labelKey =
        field.fld.domain.displayFormatter.getD tr field.value) ∧
    (∀ (i : Nat) (hi : i < values.length),
      (values.take i).all
        (fun r => !(getProp r (valueKey.getD "code") == field.value)) = true →
      (getProp (values.get ⟨i, hi⟩) (valueKey.getD "code") == field.value) = true →
      stringFor tr field values valueKey labelKey =
        field.fld.domain.displayFormatter.getD tr
          (if (getProp (values.get ⟨i, hi⟩) (labelKey.getD "label")).truthy
           then getProp (values.get ⟨i, hi⟩) (labelKey.getD "label")
           else field.value)) := by
  constructor
  · intro h
    have hf : values.find?
        (fun r => getProp r (valueKey.getD "code") == field.value) = none := by
      rw [List.find?_eq_none]
      intro r hr
      simp [h r hr]
    simp [stringFor, hf]
  · intro i hi hall hp
    have hf := find?_eq_get_of_first
      (fun r => getProp r (valueKey.getD "code") == field.value) values i hi hall hp
    simp [stringFor, hf]

/-- Witness for C10: the first-match case (value `2` matches the second
element, label `"two"`) and the no-match case (value `9`), both through
the default translate service. -/
theorem stringFor_spec_witness :
    (refListEx.take 1).all (fun r => !(getProp r "code" == fieldEx.value)) = true ∧
    (getProp (refListEx.get ⟨1, by decide⟩) "code" == fieldEx.value) = true ∧
    stringFor trEx fieldEx refListEx none none = "two" ∧
    (∀ r ∈ refListEx, (getProp r "code" == fieldNoMatchEx.value) = false) ∧
    stringFor trEx fieldNoMatchEx refListEx none none = "?" := by
  refine ⟨by decide, by decide, ?_, by decide, ?_⟩
  · rw [(stringFor_spec trEx fieldEx refListEx none none).2 1 (by decide)
      (by decide) (by decide)]
    decide
  · rw [(stringFor_spec trEx fieldNoMatchEx refListEx none none).1 (by decide)]
    decide

end Focus4
